import Mathlib

/-!
Verification development for the `wlc` repository.

Shallow embedding of `src/wlc/models.py` (closed-form worm-like-chain
models) and `src/wlc/fitting.py` (the `WormLikeChain` iterative fitter).
Real arithmetic is modelled over `ℚ`; the external lmfit minimizer is an
out-of-scope collaborator and is modelled as an oracle
`FitParams → ℕ → MinRes` handed to the fitter.  Python exceptions
(`ValueError`, `KeyError`, pandas label/index failures) are modelled with
`Except` / an `err` field in the loop state.
-/

namespace Wlc

/-- Coefficient array `alpha` of the Bouchiat correction
(models.py, `bouchiat` and `ebouchiat`). -/
def alphaCoeffs : List ℚ :=
  [-5164228/10000000, -2737418/1000000, 1607497/100000,
   -3887607/100000, 3949944/100000, -1417718/100000]

/-- Correction accumulated by the loop
`for n in range(len(alpha)): corr += alpha[n]*x**(n+2)`
in `bouchiat` / `ebouchiat` (models.py). -/
def bouchiatCorr (x : ℚ) : ℚ :=
  ∑ n ∈ Finset.range alphaCoeffs.length, alphaCoeffs.getD n 0 * x ^ (n + 2)

/-- models.WLC: basic worm-like chain force; the `d = d*1000` line
(um to nm rescale) is inlined as `d * 1000`. -/
def WLC (d kBT Lc Lp : ℚ) : ℚ :=
  (kBT / Lp) * (1/4 / (1 - d * 1000 / Lc) ^ 2 - 1/4 + d * 1000 / Lc)

/-- models.eWLC: extensible worm-like chain; takes the `(d, F)` pair and
works on the normalized extension `d/Lc - F/S` (with `d` rescaled). -/
def eWLC (fdata : ℚ × ℚ) (kBT Lc Lp S : ℚ) : ℚ :=
  (kBT / Lp) * (1/4 / (1 - (fdata.1 * 1000 / Lc - fdata.2 / S)) ^ 2 - 1/4 +
    (fdata.1 * 1000 / Lc - fdata.2 / S))

/-- models.bouchiat: WLC plus the seventh-order Bouchiat correction. -/
def bouchiat (d kBT Lc Lp : ℚ) : ℚ :=
  (kBT / Lp) * (1/4 / (1 - d * 1000 / Lc) ^ 2 - 1/4 + d * 1000 / Lc +
    bouchiatCorr (d * 1000 / Lc))

/-- models.ebouchiat: Bouchiat correction on the extensible normalized
extension `l = d/Lc - F/S` (with `d` rescaled). -/
def ebouchiat (fdata : ℚ × ℚ) (kBT Lc Lp S : ℚ) : ℚ :=
  (kBT / Lp) * (1/4 / (1 - (fdata.1 * 1000 / Lc - fdata.2 / S)) ^ 2 - 1/4 +
    (fdata.1 * 1000 / Lc - fdata.2 / S) +
    bouchiatCorr (fdata.1 * 1000 / Lc - fdata.2 / S))

/-! `models.odijk` involves a real square root `(kBT/(F*Lp))**0.5`; no
claim depends on its formula, so only its tag appears in the fitter
embedding below. -/

/-- The model selected by `WormLikeChain.__init__` (fitting.py). -/
inductive ModelTag
  | WLC
  | bouchiat
  | odijk
  | eWLC
  deriving DecidableEq, Repr

/-- Error raised by `WormLikeChain.__init__` (a `ValueError` in the
source). -/
inductive InitError
  | unknownModel
  deriving DecidableEq, Repr

namespace WormLikeChain

/-- WormLikeChain.__init__ (fitting.py lines 20-30): the chain of
string comparisons selecting the model function; any other name raises. -/
def init (model : String) : Except InitError ModelTag :=
  if model = "WLC" then .ok .WLC
  else if model = "bouchiat" then .ok .bouchiat
  else if model = "odijk" then .ok .odijk
  else if model = "eWLC" then .ok .eWLC
  else .error .unknownModel

end WormLikeChain

/-- Boltzmann constant `KB = 0.013806` (fitting.py line 50). -/
def KB : ℚ := 13806/1000000

/-- The `params` dictionary handed to `WormLikeChain.compile`.  `kBT`,
`T` and the `S` entries may be absent (`Option`); the `Lc`/`Lp` entries
are always read by `compile`, so they are plain fields. -/
structure ParamsDict where
  kBT : Option ℚ
  T : Option ℚ
  Lc : ℚ
  Lc_lower : ℚ
  Lc_upper : ℚ
  Lp : ℚ
  Lp_lower : ℚ
  Lp_upper : ℚ
  S : Option ℚ
  S_lower : Option ℚ
  S_upper : Option ℚ
  deriving DecidableEq, Repr

/-- Errors raised by `WormLikeChain.compile`: the `ValueError` of
contradictory `kBT`/`T` (line 59), and Python `KeyError`s from reading a
missing dictionary key. -/
inductive CompileError
  | contradiction
  | keyError
  deriving DecidableEq, Repr

/-- Hint for the `S` parameter (value, min, max). -/
structure SHint where
  value : ℚ
  min : ℚ
  max : ℚ
  deriving DecidableEq, Repr

/-- The prepared configuration `self.fparams` built by `compile`:
initial values and bounds for `Lc` and `Lp`, the fixed `kBT`, and an `S`
hint for the models that use one. -/
structure FitParams where
  kBT : ℚ
  Lc : ℚ
  LcMin : ℚ
  LcMax : ℚ
  Lp : ℚ
  LpMin : ℚ
  LpMax : ℚ
  S : Option SHint
  deriving DecidableEq, Repr

/-- Which models make `compile` register an `S` hint and make `fit`
extract a fitted `S` (fitting.py lines 64-65 and 110-118). -/
def hasS : ModelTag → Bool
  | .odijk => true
  | .eWLC => true
  | _ => false

namespace WormLikeChain

/-- The part of `compile` after the `kBT` branch: register the `Lc`/`Lp`
hints (always present) and the `S` hint for odijk/eWLC, reading the `S`
keys of the dictionary (a missing key is a `KeyError`). -/
def compileRest (tag : ModelTag) (p : ParamsDict) (kbt : ℚ) :
    Except CompileError FitParams :=
  if hasS tag then
    match p.S, p.S_lower, p.S_upper with
    | some v, some lo, some hi =>
        .ok { kBT := kbt
              Lc := p.Lc
              LcMin := p.Lc_lower
              LcMax := p.Lc_upper
              Lp := p.Lp
              LpMin := p.Lp_lower
              LpMax := p.Lp_upper
              S := some ⟨v, lo, hi⟩ }
    | _, _, _ => .error .keyError
  else
    .ok { kBT := kbt
          Lc := p.Lc
          LcMin := p.Lc_lower
          LcMax := p.Lc_upper
          Lp := p.Lp
          LpMin := p.Lp_lower
          LpMax := p.Lp_upper
          S := none }

/-- WormLikeChain.compile (fitting.py lines 41-71): derive `kBT` from the
dictionary (first branch: only `kBT`; second: only `T`; else-branch:
both present and compared for exact equality, or neither present, in
which case reading `params["kBT"]` is a `KeyError`), then register the
parameter hints. -/
def compile (tag : ModelTag) (p : ParamsDict) : Except CompileError FitParams :=
  match p.kBT, p.T with
  | some k, none => compileRest tag p k
  | none, some t => compileRest tag p (KB * (27315/100 + t))
  | some k, some t =>
      if k = KB * (27315/100 + t) then compileRest tag p k
      else .error .contradiction
  | none, none => .error .keyError

end WormLikeChain

/-- What the fitter reads off one lmfit minimizer result: the fitted
parameter values and the goodness-of-fit statistic. -/
structure MinRes where
  Lc : ℚ
  Lp : ℚ
  S : ℚ
  chisqr : ℚ
  deriving DecidableEq, Repr

/-- One row of `df_full` (fitting.py lines 100 and 124-130). -/
structure Record where
  Lc : ℚ
  Lp : ℚ
  S : Option ℚ
  chisqr : ℚ
  filename : Option String
  iter : ℕ
  dLp : Option ℚ
  deriving DecidableEq, Inhabited, Repr

/-- Runtime failures of `WormLikeChain.fit`: the pandas `KeyError` from
`df_full.loc[i-1, ...]` when label `i-1` is absent (line 122), and the
`IndexError` from `values[-1]` on an empty table (line 151). -/
inductive FitError
  | keyError
  | indexError
  deriving DecidableEq, Repr

/-- State of the `fit` loop: the accepted table `df_full`, the local
`dLp` (`none` models `np.infty`), the iteration counter `i`, the mutable
`self.fparams`, the last minimizer result `self.result`, the number of
minimizer invocations so far, and a pending exception. -/
structure FitState where
  df : List Record
  dLp : Option ℚ
  i : ℕ
  ps : FitParams
  result : Option MinRes
  calls : ℕ
  err : Option FitError
  deriving DecidableEq, Repr

/-- The loop guard `dLp > min_delta` where `dLp` may be `np.infty`. -/
def dLpGT : Option ℚ → ℚ → Bool
  | none, _ => true
  | some q, m => m < q

/-- One body execution of the `while` loop in `fit` (fitting.py lines
108-145): invoke the minimizer, recompute `dLp` from the row labelled
`i-1` of the accepted table when `i > 0` (a missing label is a pandas
`KeyError`, aborting the call before the table, `fparams` or `i` are
touched), build the row, drop it when a fitted value is on or outside
its bound, otherwise append it, then warm-start `fparams["Lp"]` with the
fitted `Lp` and increment `i`. -/
def step (minimize : FitParams → ℕ → MinRes) (tag : ModelTag)
    (filename : Option String) (st : FitState) : FitState :=
  let res := minimize st.ps st.i
  let st1 := { st with result := some res, calls := st.calls + 1 }
  if st.i ≠ 0 ∧ st.df.length < st.i then
    { st1 with err := some .keyError }
  else
    let dLpNew : Option ℚ :=
      if st.i = 0 then st.dLp
      else some |res.Lp - (st.df.getD (st.i - 1) default).Lp|
    let row : Record :=
      { Lc := res.Lc
        Lp := res.Lp
        S := if hasS tag then some res.S else none
        chisqr := res.chisqr
        filename := filename
        iter := st.i + 1
        dLp := dLpNew }
    let dfNew : List Record :=
      if res.Lc ≤ st.ps.LcMin ∨ st.ps.LcMax ≤ res.Lc then st.df
      else if res.Lp ≤ st.ps.LpMin ∨ st.ps.LpMax ≤ res.Lp then st.df
      else st.df ++ [row]
    { st1 with
      df := dfNew
      dLp := dLpNew
      ps := { st.ps with Lp := res.Lp }
      i := st.i + 1 }

/-- The `while (dLp > min_delta) and (i < max_iters)` loop.  The fuel is
`max_iters - i` (the loop is always entered with `i = 0`); a pending
exception stops the loop, as the Python exception aborts the call. -/
def fitLoop (minimize : FitParams → ℕ → MinRes) (tag : ModelTag)
    (filename : Option String) (minDelta : ℚ) :
    ℕ → FitState → FitState
  | 0, st => st
  | fuel + 1, st =>
      if st.err = none ∧ dLpGT st.dLp minDelta then
        fitLoop minimize tag filename minDelta fuel
          (step minimize tag filename st)
      else st

/-- The state at entry of the loop (fitting.py lines 100-104): empty
table, `dLp = np.infty`, `i = 0`, the compiled parameters. -/
def initState (ps : FitParams) : FitState :=
  { df := []
    dLp := none
    i := 0
    ps := ps
    result := none
    calls := 0
    err := none }

/-- The summary row `df_file` returned by `fit` (fitting.py line 151). -/
structure Summary where
  optLc : ℚ
  optLp : ℚ
  optS : Option ℚ
  nFittings : ℕ
  filename : Option String
  deriving DecidableEq, Repr

namespace WormLikeChain

/-- WormLikeChain.fit (fitting.py lines 73-156): run the loop from the
prepared configuration, then repackage the last row of the accepted
table as the summary (`values[-1]` on an empty table is an
`IndexError`).  The final state is returned alongside, standing for the
mutated `self` attributes (`fparams`, `df_full`, `result`). -/
def fit (minimize : FitParams → ℕ → MinRes) (tag : ModelTag)
    (filename : Option String) (minDelta : ℚ) (maxIters : ℕ)
    (ps : FitParams) : Except FitError (Summary × FitState) :=
  let st := fitLoop minimize tag filename minDelta maxIters (initState ps)
  match st.err with
  | some e => .error e
  | none =>
      match st.df.getLast? with
      | none => .error .indexError
      | some r =>
          .ok ({ optLc := r.Lc
                 optLp := r.Lp
                 optS := r.S
                 nFittings := r.iter
                 filename := r.filename }, st)

end WormLikeChain

/-! ### Polynomial infrastructure for the Bouchiat correction

The correction is `x^2 * p(x)` with `p` the degree-5 polynomial with
coefficient list `alphaCoeffs`.  To show the correction never vanishes at
a nonzero rational `x`, we show `-10^7 * p` (an integer quintic) has no
rational root: its homogenization has no nontrivial zero modulo 3, so a
root in lowest terms would force 3 to divide both numerator and
denominator. -/

/-- `-10^7` times the coefficient list `alphaCoeffs`. -/
def negAlphaZ : List ℤ :=
  [5164228, 27374180, -160749700, 388760700, -394994400, 141771800]

/-- Evaluation of an integer coefficient list at a rational point. -/
def polyEvalZ (x : ℚ) : List ℤ → ℚ
  | [] => 0
  | c :: p => (c : ℚ) + x * polyEvalZ x p

/-! ### Concrete configurations and minimizer oracles

Used by the counterexample and witness theorems below. -/

/-- A prepared configuration: `Lc` and `Lp` bounded by `(0, 100)` with
initial values `50`, `kBT = 4.1`, no `S` (the WLC model). -/
def psEx : FitParams :=
  { kBT := 41/10, Lc := 50, LcMin := 0, LcMax := 100,
    Lp := 50, LpMin := 0, LpMax := 100, S := none }

/-- A minimizer whose iteration-0 result has `Lc` on the lower bound of
`psEx` (so the acceptance filter drops it) and whose later results are
strictly inside the bounds. -/
def minRej : FitParams → ℕ → MinRes := fun _ i =>
  if i = 0 then { Lc := 0, Lp := 50, S := 0, chisqr := 0 }
  else { Lc := 50, Lp := 50, S := 0, chisqr := 0 }

/-- A fit result strictly inside the bounds of `psEx`, with a fitted `Lp`
different from the seed of `psEx`. -/
def accRes : MinRes := { Lc := 50, Lp := 60, S := 0, chisqr := 0 }

/-- A minimizer that always returns `accRes`. -/
def minAcc : FitParams → ℕ → MinRes := fun _ _ => accRes

/-- `params` dictionary carrying both `kBT = 4.1` and `T = 25`. -/
def pDict25 : ParamsDict :=
  { kBT := some (41/10), T := some 25, Lc := 1000, Lc_lower := 0,
    Lc_upper := 2000, Lp := 50, Lp_lower := 0, Lp_upper := 100,
    S := some 1000, S_lower := some 0, S_upper := some 2000 }

/-- `params` dictionary carrying both `kBT = 4.1` and `T = 1000`. -/
def pDict1000 : ParamsDict :=
  { kBT := some (41/10), T := some 1000, Lc := 1000, Lc_lower := 0,
    Lc_upper := 2000, Lp := 50, Lp_lower := 0, Lp_upper := 100,
    S := some 1000, S_lower := some 0, S_upper := some 2000 }

/-- All fields of a prepared configuration except the `Lp` initial value
agree: what `fit` is supposed to leave untouched. -/
def psFrame (a b : FitParams) : Prop :=
  b.kBT = a.kBT ∧ b.Lc = a.Lc ∧ b.LcMin = a.LcMin ∧ b.LcMax = a.LcMax ∧
    b.LpMin = a.LpMin ∧ b.LpMax = a.LpMax ∧ b.S = a.S

end Wlc

namespace Wlc

/-! ## Helper lemmas: the Bouchiat correction never vanishes at nonzero x -/

theorem bouchiatCorr_eval (x : ℚ) :
    bouchiatCorr x = -(x ^ 2 * polyEvalZ x negAlphaZ) / 10 ^ 7 := by
  simp [bouchiatCorr, alphaCoeffs, Finset.sum_range_succ, polyEvalZ, negAlphaZ]
  ring

theorem homogMod3 : ∀ a b : ZMod 3,
    5164228 * b ^ 5 + 27374180 * a * b ^ 4 - 160749700 * a ^ 2 * b ^ 3
      + 388760700 * a ^ 3 * b ^ 2 - 394994400 * a ^ 4 * b
      + 141771800 * a ^ 5 = 0 →
    a = 0 ∧ b = 0 := by decide

theorem negAlphaZ_eval_ne_zero (x : ℚ) : polyEvalZ x negAlphaZ ≠ 0 := by
  intro hx
  have hden : (x.den : ℚ) ≠ 0 := Nat.cast_ne_zero.mpr x.den_nz
  have hnum : (x.num : ℚ) = x * (x.den : ℚ) :=
    (div_eq_iff hden).mp (Rat.num_div_den x)
  have h2 : ((5164228 * (x.den : ℤ) ^ 5 + 27374180 * x.num * (x.den : ℤ) ^ 4
      - 160749700 * x.num ^ 2 * (x.den : ℤ) ^ 3
      + 388760700 * x.num ^ 3 * (x.den : ℤ) ^ 2
      - 394994400 * x.num ^ 4 * (x.den : ℤ)
      + 141771800 * x.num ^ 5 : ℤ) : ℚ)
      = (x.den : ℚ) ^ 5 * polyEvalZ x negAlphaZ := by
    simp only [negAlphaZ, polyEvalZ]
    push_cast
    rw [hnum]
    ring
  have keyZ : (5164228 * (x.den : ℤ) ^ 5 + 27374180 * x.num * (x.den : ℤ) ^ 4
      - 160749700 * x.num ^ 2 * (x.den : ℤ) ^ 3
      + 388760700 * x.num ^ 3 * (x.den : ℤ) ^ 2
      - 394994400 * x.num ^ 4 * (x.den : ℤ)
      + 141771800 * x.num ^ 5 : ℤ) = 0 := by
    rw [hx, mul_zero] at h2
    exact_mod_cast h2
  have hmod : (5164228 : ZMod 3) * ((x.den : ℕ) : ZMod 3) ^ 5
      + 27374180 * ((x.num : ℤ) : ZMod 3) * ((x.den : ℕ) : ZMod 3) ^ 4
      - 160749700 * ((x.num : ℤ) : ZMod 3) ^ 2 * ((x.den : ℕ) : ZMod 3) ^ 3
      + 388760700 * ((x.num : ℤ) : ZMod 3) ^ 3 * ((x.den : ℕ) : ZMod 3) ^ 2
      - 394994400 * ((x.num : ℤ) : ZMod 3) ^ 4 * ((x.den : ℕ) : ZMod 3)
      + 141771800 * ((x.num : ℤ) : ZMod 3) ^ 5 = 0 := by
    have h4 := congrArg (fun z : ℤ => (z : ZMod 3)) keyZ
    push_cast at h4
    linear_combination h4
  obtain ⟨hA0, hB0⟩ := homogMod3 _ _ hmod
  have hdvdden : 3 ∣ x.den :=
    (ZMod.natCast_zmod_eq_zero_iff_dvd x.den 3).mp hB0
  have h6 : ((3 : ℕ) : ℤ) ∣ x.num :=
    (ZMod.intCast_zmod_eq_zero_iff_dvd x.num 3).mp hA0
  have hdvdnum : 3 ∣ x.num.natAbs := by
    have h7 := Int.natAbs_dvd_natAbs.mpr h6
    simpa using h7
  have h8 : (3 : ℕ) ∣ 1 := x.reduced ▸ Nat.dvd_gcd hdvdnum hdvdden
  omega

theorem bouchiatCorr_ne_zero (d Lc : ℚ) (h : d / Lc ≠ 0) :
    bouchiatCorr (1000 * d / Lc) ≠ 0 := by
  have hx : (1000 * d / Lc : ℚ) ≠ 0 := by
    rw [mul_div_assoc]
    exact mul_ne_zero (by norm_num) h
  rw [bouchiatCorr_eval]
  have hE := negAlphaZ_eval_ne_zero (1000 * d / Lc)
  intro hc
  rw [div_eq_zero_iff] at hc
  rcases hc with hc | hc
  · rw [neg_eq_zero] at hc
    rcases mul_eq_zero.mp hc with h1 | h1
    · exact hx (pow_eq_zero_iff (by norm_num) |>.mp h1)
    · exact hE h1
  · norm_num at hc

/-! ## Helper lemmas: the fit loop -/

theorem step_of_ok (M : FitParams → ℕ → MinRes) (tag : ModelTag)
    (fn : Option String) (st : FitState) (hok : st.i = 0 ∨ st.i ≤ st.df.length) :
    step M tag fn st =
      { df := if (M st.ps st.i).Lc ≤ st.ps.LcMin ∨ st.ps.LcMax ≤ (M st.ps st.i).Lc
            then st.df
          else if (M st.ps st.i).Lp ≤ st.ps.LpMin ∨ st.ps.LpMax ≤ (M st.ps st.i).Lp
            then st.df
          else st.df ++
            [{ Lc := (M st.ps st.i).Lc, Lp := (M st.ps st.i).Lp,
               S := if hasS tag then some (M st.ps st.i).S else none,
               chisqr := (M st.ps st.i).chisqr, filename := fn, iter := st.i + 1,
               dLp := if st.i = 0 then st.dLp
                 else some |(M st.ps st.i).Lp - (st.df.getD (st.i - 1) default).Lp| }]
        dLp := if st.i = 0 then st.dLp
          else some |(M st.ps st.i).Lp - (st.df.getD (st.i - 1) default).Lp|
        i := st.i + 1
        ps := { st.ps with Lp := (M st.ps st.i).Lp }
        result := some (M st.ps st.i)
        calls := st.calls + 1
        err := st.err } := by
  have hcond : ¬(st.i ≠ 0 ∧ st.df.length < st.i) := by omega
  simp only [step]
  rw [if_neg hcond]

theorem step_calls (M : FitParams → ℕ → MinRes) (tag : ModelTag)
    (fn : Option String) (st : FitState) :
    (step M tag fn st).calls = st.calls + 1 := by
  by_cases hc : st.i ≠ 0 ∧ st.df.length < st.i
  · simp only [step]; rw [if_pos hc]
  · simp only [step]; rw [if_neg hc]

theorem step_ps_frame (M : FitParams → ℕ → MinRes) (tag : ModelTag)
    (fn : Option String) (st : FitState) :
    psFrame st.ps (step M tag fn st).ps := by
  by_cases hc : st.i ≠ 0 ∧ st.df.length < st.i
  · simp only [step]; rw [if_pos hc]
    exact ⟨rfl, rfl, rfl, rfl, rfl, rfl, rfl⟩
  · simp only [step]; rw [if_neg hc]
    exact ⟨rfl, rfl, rfl, rfl, rfl, rfl, rfl⟩

theorem psFrame_refl (a : FitParams) : psFrame a a :=
  ⟨rfl, rfl, rfl, rfl, rfl, rfl, rfl⟩

theorem psFrame_trans {a b c : FitParams} (h1 : psFrame a b) (h2 : psFrame b c) :
    psFrame a c :=
  ⟨h2.1.trans h1.1, h2.2.1.trans h1.2.1, h2.2.2.1.trans h1.2.2.1,
   h2.2.2.2.1.trans h1.2.2.2.1, h2.2.2.2.2.1.trans h1.2.2.2.2.1,
   h2.2.2.2.2.2.1.trans h1.2.2.2.2.2.1, h2.2.2.2.2.2.2.trans h1.2.2.2.2.2.2⟩

theorem fitLoop_ps_frame (M : FitParams → ℕ → MinRes) (tag : ModelTag)
    (fn : Option String) (δ : ℚ) : ∀ (fuel : ℕ) (st : FitState),
    psFrame st.ps (fitLoop M tag fn δ fuel st).ps
  | 0, st => psFrame_refl st.ps
  | fuel + 1, st => by
      simp only [fitLoop]
      split
      · exact psFrame_trans (step_ps_frame M tag fn st)
          (fitLoop_ps_frame M tag fn δ fuel (step M tag fn st))
      · exact psFrame_refl st.ps

theorem fitLoop_of_err (M : FitParams → ℕ → MinRes) (tag : ModelTag)
    (fn : Option String) (δ : ℚ) : ∀ (fuel : ℕ) (st : FitState),
    st.err ≠ none → fitLoop M tag fn δ fuel st = st
  | 0, _, _ => rfl
  | fuel + 1, st, h => by
      simp only [fitLoop]
      rw [if_neg (fun hc => h hc.1)]

theorem step_inv_result (M : FitParams → ℕ → MinRes) (tag : ModelTag)
    (fn : Option String) (st : FitState) (h : (step M tag fn st).err = none) :
    (step M tag fn st).result = some (M st.ps st.i) ∧
      (step M tag fn st).ps.Lp = (M st.ps st.i).Lp := by
  by_cases hc : st.i ≠ 0 ∧ st.df.length < st.i
  · exfalso
    simp only [step] at h
    rw [if_pos hc] at h
    simp at h
  · simp only [step]
    rw [if_neg hc]
    exact ⟨rfl, rfl⟩

theorem fitLoop_result_lp (M : FitParams → ℕ → MinRes) (tag : ModelTag)
    (fn : Option String) (δ : ℚ) : ∀ (fuel : ℕ) (st : FitState),
    (∀ r, st.err = none → st.result = some r → st.ps.Lp = r.Lp) →
    ∀ r, (fitLoop M tag fn δ fuel st).err = none →
      (fitLoop M tag fn δ fuel st).result = some r →
      (fitLoop M tag fn δ fuel st).ps.Lp = r.Lp
  | 0, st, hInv => hInv
  | fuel + 1, st, hInv => by
      simp only [fitLoop]
      split
      · intro r herr hres
        by_cases hstep : (step M tag fn st).err = none
        · refine fitLoop_result_lp M tag fn δ fuel (step M tag fn st) ?_ r herr hres
          intro r2 h1 h2
          obtain ⟨hr, hl⟩ := step_inv_result M tag fn st h1
          rw [hl]
          have h3 : some (M st.ps st.i) = some r2 := hr.symm.trans h2
          injection h3 with h3
          rw [h3]
        · rw [fitLoop_of_err M tag fn δ fuel _ hstep] at herr
          exact absurd herr hstep
      · exact hInv

theorem fitLoop_calls_le (M : FitParams → ℕ → MinRes) (tag : ModelTag)
    (fn : Option String) (δ : ℚ) : ∀ (fuel : ℕ) (st : FitState),
    (fitLoop M tag fn δ fuel st).calls ≤ st.calls + fuel
  | 0, st => Nat.le_refl _
  | fuel + 1, st => by
      simp only [fitLoop]
      split
      · have h1 := fitLoop_calls_le M tag fn δ fuel (step M tag fn st)
        rw [step_calls] at h1
        omega
      · omega

theorem step_dLp_abs (M : FitParams → ℕ → MinRes) (tag : ModelTag)
    (fn : Option String) (st : FitState) (h : ∀ q, st.dLp = some q → 0 ≤ q) :
    ∀ q, (step M tag fn st).dLp = some q → 0 ≤ q := by
  by_cases hc : st.i ≠ 0 ∧ st.df.length < st.i
  · simp only [step]; rw [if_pos hc]; exact h
  · simp only [step]; rw [if_neg hc]
    intro q hq
    dsimp only at hq
    split at hq
    · exact h q hq
    · injection hq with hq
      rw [← hq]
      exact abs_nonneg _

theorem fitLoop_calls_exact (M : FitParams → ℕ → MinRes) (tag : ModelTag)
    (fn : Option String) (δ : ℚ) (hδ : δ < 0) : ∀ (fuel : ℕ) (st : FitState),
    (∀ q, st.dLp = some q → 0 ≤ q) → st.err = none →
    (fitLoop M tag fn δ fuel st).err = none →
    (fitLoop M tag fn δ fuel st).calls = st.calls + fuel
  | 0, _, _, _, _ => rfl
  | fuel + 1, st, habs, herr, hfin => by
      have hguard : st.err = none ∧ dLpGT st.dLp δ = true := by
        refine ⟨herr, ?_⟩
        cases hdl : st.dLp with
        | none => rfl
        | some q =>
            have hq := habs q hdl
            simp [dLpGT]
            linarith
      simp only [fitLoop] at hfin ⊢
      rw [if_pos hguard] at hfin ⊢
      by_cases hstep : (step M tag fn st).err = none
      · have h2 := fitLoop_calls_exact M tag fn δ hδ fuel (step M tag fn st)
          (step_dLp_abs M tag fn st habs) hstep hfin
        rw [h2, step_calls]
        omega
      · rw [fitLoop_of_err M tag fn δ fuel _ hstep] at hfin
        exact absurd hfin hstep

theorem compileRest_ne_contradiction (tag : ModelTag) (p : ParamsDict) (k : ℚ) :
    WormLikeChain.compileRest tag p k ≠ .error .contradiction := by
  cases tag <;>
    rcases hS : p.S with _ | v <;> rcases hLo : p.S_lower with _ | lo <;>
      rcases hHi : p.S_upper with _ | hi <;>
        simp [WormLikeChain.compileRest, hasS, hS, hLo, hHi]

end Wlc

namespace Wlc

/-! ## Claim theorems -/

/-- Claim C1 (code bug): `dLp` at iteration 0 is infinite, but the claim
that for `i ≥ 1` `dLp` is the difference from the most recent *accepted*
record fails on the code: `df_full.loc[i-1]` looks up the row *label*
`i-1` in the accepted-only table, so as soon as any earlier iteration was
rejected the label is missing and the call dies with a pandas `KeyError`.
Concretely: with `minRej` (iteration 0 rejected on the `Lc` lower bound)
and `max_iters = 2`, `fit` aborts with the `KeyError` at iteration 1,
after the second minimizer invocation. -/
theorem fit_dLp_lookup_keyError :
    WormLikeChain.fit minRej .WLC none (1/100) 2 psEx = .error .keyError ∧
      (fitLoop minRej .WLC none (1/100) 2 (initState psEx)).calls = 2 :=
  ⟨rfl, rfl⟩

/-- Claim C2 (confirmed): in any loop iteration whose `dLp` lookup does
not fail, the iteration's row is appended to the accepted table if and
only if the fitted `Lc` and `Lp` lie strictly inside their bounds;
landing exactly on a bound (or outside) leaves the table unchanged, and
the iteration counter is incremented either way. -/
theorem step_acceptance_filter (M : FitParams → ℕ → MinRes) (tag : ModelTag)
    (fn : Option String) (st : FitState) (res : MinRes)
    (hres : M st.ps st.i = res) (hok : st.i = 0 ∨ st.i ≤ st.df.length) :
    ((step M tag fn st).df = st.df ++
        [{ Lc := res.Lc, Lp := res.Lp,
           S := if hasS tag then some res.S else none,
           chisqr := res.chisqr, filename := fn, iter := st.i + 1,
           dLp := if st.i = 0 then st.dLp
             else some |res.Lp - (st.df.getD (st.i - 1) default).Lp| }] ↔
      (st.ps.LcMin < res.Lc ∧ res.Lc < st.ps.LcMax ∧
       st.ps.LpMin < res.Lp ∧ res.Lp < st.ps.LpMax)) ∧
    (¬(st.ps.LcMin < res.Lc ∧ res.Lc < st.ps.LcMax ∧
       st.ps.LpMin < res.Lp ∧ res.Lp < st.ps.LpMax) →
      (step M tag fn st).df = st.df) ∧
    (step M tag fn st).i = st.i + 1 := by
  subst hres
  rw [step_of_ok M tag fn st hok]
  dsimp only
  have hne : ∀ row : Record, st.df ≠ st.df ++ [row] := by
    intro row hEq
    have hlen := congrArg List.length hEq
    simp at hlen
  refine ⟨?_, ?_, rfl⟩
  · by_cases h1 : (M st.ps st.i).Lc ≤ st.ps.LcMin ∨ st.ps.LcMax ≤ (M st.ps st.i).Lc
    · rw [if_pos h1]
      constructor
      · intro hEq
        exact absurd hEq (hne _)
      · rintro ⟨a1, a2, _, _⟩
        rcases h1 with h | h <;> linarith
    · rw [if_neg h1]
      by_cases h2 : (M st.ps st.i).Lp ≤ st.ps.LpMin ∨ st.ps.LpMax ≤ (M st.ps st.i).Lp
      · rw [if_pos h2]
        constructor
        · intro hEq
          exact absurd hEq (hne _)
        · rintro ⟨_, _, b1, b2⟩
          rcases h2 with h | h <;> linarith
      · rw [if_neg h2]
        push_neg at h1 h2
        constructor
        · intro _
          exact ⟨h1.1, h1.2, h2.1, h2.2⟩
        · intro _
          rfl
  · intro hnb
    by_cases h1 : (M st.ps st.i).Lc ≤ st.ps.LcMin ∨ st.ps.LcMax ≤ (M st.ps st.i).Lc
    · rw [if_pos h1]
    · rw [if_neg h1]
      by_cases h2 : (M st.ps st.i).Lp ≤ st.ps.LpMin ∨ st.ps.LpMax ≤ (M st.ps st.i).Lp
      · rw [if_pos h2]
      · exfalso
        push_neg at h1 h2
        exact hnb ⟨h1.1, h1.2, h2.1, h2.2⟩

/-- Witness for claim C2 at a concrete accepted iteration. -/
theorem step_acceptance_filter_witness :
    (step minAcc .WLC none (initState psEx)).i = (initState psEx).i + 1 :=
  (step_acceptance_filter minAcc .WLC none (initState psEx) accRes rfl
    (Or.inl rfl)).2.2

/-- Claim C3 (confirmed): every non-crashing iteration rewrites the
prepared configuration's `Lp` initial value to that iteration's fitted
`Lp` (accepted or rejected); the loop never changes any other field of
the configuration (seeds of `Lc`/`S`, all bounds, `kBT`); and on a run
that ends without error the configuration's `Lp` seed equals the `Lp` of
the last minimizer result, so a second `fit` on the same object starts
from the first run's last fitted `Lp`, not the compiled seed. -/
theorem fit_warm_start_frame :
    (∀ (M : FitParams → ℕ → MinRes) (tag : ModelTag) (fn : Option String)
        (st : FitState), st.i = 0 ∨ st.i ≤ st.df.length →
        (step M tag fn st).ps = { st.ps with Lp := (M st.ps st.i).Lp }) ∧
    (∀ (M : FitParams → ℕ → MinRes) (tag : ModelTag) (fn : Option String)
        (δ : ℚ) (fuel : ℕ) (st : FitState),
        psFrame st.ps (fitLoop M tag fn δ fuel st).ps) ∧
    (∀ (M : FitParams → ℕ → MinRes) (tag : ModelTag) (fn : Option String)
        (δ : ℚ) (fuel : ℕ) (ps : FitParams) (r : MinRes),
        (fitLoop M tag fn δ fuel (initState ps)).err = none →
        (fitLoop M tag fn δ fuel (initState ps)).result = some r →
        (fitLoop M tag fn δ fuel (initState ps)).ps.Lp = r.Lp) := by
  refine ⟨?_, ?_, ?_⟩
  · intro M tag fn st hok
    rw [step_of_ok M tag fn st hok]
  · intro M tag fn δ fuel st
    exact fitLoop_ps_frame M tag fn δ fuel st
  · intro M tag fn δ fuel ps r h1 h2
    refine fitLoop_result_lp M tag fn δ fuel (initState ps) ?_ r h1 h2
    intro r2 _ hr2
    simp [initState] at hr2

/-- Witness for claim C3 on a concrete two-iteration run. -/
theorem fit_warm_start_frame_witness :
    (fitLoop minAcc .WLC none (-1) 2 (initState psEx)).ps.Lp = accRes.Lp :=
  fit_warm_start_frame.2.2 minAcc .WLC none (-1) 2 psEx accRes rfl rfl

/-- Claim C4 (confirmed): when the loop exits without exception, `fit`
returns the summary row built from exactly the last accepted record
(`Lc`, `Lp`, `S`, its stored iteration count, the dataset label); when
the accepted table is empty on exit (all iterations filtered, or
`max_iters = 0`) it instead fails with the `IndexError` of `values[-1]`
on an empty table. -/
theorem fit_returns_last_accepted (M : FitParams → ℕ → MinRes) (tag : ModelTag)
    (fn : Option String) (δ : ℚ) (n : ℕ) (ps : FitParams) (st : FitState)
    (hst : fitLoop M tag fn δ n (initState ps) = st) (herr : st.err = none) :
    (∀ r, st.df.getLast? = some r →
        WormLikeChain.fit M tag fn δ n ps =
          .ok ({ optLc := r.Lc, optLp := r.Lp, optS := r.S,
                 nFittings := r.iter, filename := r.filename }, st)) ∧
    (st.df = [] → WormLikeChain.fit M tag fn δ n ps = .error .indexError) := by
  constructor
  · intro r hr
    simp [WormLikeChain.fit, hst, herr, hr]
  · intro hdf
    simp [WormLikeChain.fit, hst, herr, hdf]

/-- Witness for claim C4 on a concrete one-iteration accepted run. -/
theorem fit_returns_last_accepted_witness :
    WormLikeChain.fit minAcc .WLC none (1/100) 1 psEx =
      .ok ({ optLc := 50, optLp := 60, optS := none, nFittings := 1,
             filename := none },
        fitLoop minAcc .WLC none (1/100) 1 (initState psEx)) :=
  (fit_returns_last_accepted minAcc .WLC none (1/100) 1 psEx
      (fitLoop minAcc .WLC none (1/100) 1 (initState psEx)) rfl rfl).1
    { Lc := 50, Lp := 60, S := none, chisqr := 0, filename := none, iter := 1,
      dLp := none }
    rfl

/-- Claim C5 counterexample: with `min_delta = -1 < 0` and
`max_iters = 3`, the run whose iteration 0 is rejected does *not* perform
exactly `max_iters` iterations: it aborts with the `dLp` lookup
`KeyError` after two minimizer invocations. -/
theorem fit_budget_cex :
    (fitLoop minRej .WLC none (-1) 3 (initState psEx)).calls ≠ 3 ∧
      (fitLoop minRej .WLC none (-1) 3 (initState psEx)).err = some .keyError := by
  constructor
  · have h : (fitLoop minRej .WLC none (-1) 3 (initState psEx)).calls = 2 := rfl
    rw [h]
    omega
  · rfl

/-- Claim C5 (corrected): the minimizer is invoked at most `max_iters`
times in every run; with `max_iters = 0` the loop body never executes;
and for `min_delta < 0` a run that finishes without the `dLp` lookup
failure performs exactly `max_iters` iterations (the unconditional
version is refuted by `fit_budget_cex`). -/
theorem fit_iteration_budget :
    (∀ (M : FitParams → ℕ → MinRes) (tag : ModelTag) (fn : Option String)
        (δ : ℚ) (n : ℕ) (ps : FitParams),
        (fitLoop M tag fn δ n (initState ps)).calls ≤ n) ∧
    (∀ (M : FitParams → ℕ → MinRes) (tag : ModelTag) (fn : Option String)
        (δ : ℚ) (st : FitState), fitLoop M tag fn δ 0 st = st) ∧
    (∀ (M : FitParams → ℕ → MinRes) (tag : ModelTag) (fn : Option String)
        (δ : ℚ) (n : ℕ) (ps : FitParams), δ < 0 →
        (fitLoop M tag fn δ n (initState ps)).err = none →
        (fitLoop M tag fn δ n (initState ps)).calls = n) := by
  refine ⟨?_, ?_, ?_⟩
  · intro M tag fn δ n ps
    have h := fitLoop_calls_le M tag fn δ n (initState ps)
    simpa [initState] using h
  · intro M tag fn δ st
    rfl
  · intro M tag fn δ n ps hδ hfin
    have h := fitLoop_calls_exact M tag fn δ hδ n (initState ps)
      (fun q hq => by simp [initState] at hq) rfl hfin
    simpa [initState] using h

/-- Witness for claim C5 on a concrete all-accepted run. -/
theorem fit_iteration_budget_witness :
    (fitLoop minAcc .WLC none (-1) 2 (initState psEx)).calls = 2 :=
  fit_iteration_budget.2.2 minAcc .WLC none (-1) 2 psEx (by norm_num) rfl

end Wlc

namespace Wlc

/-- Claim C6 counterexample: `compile` with `kBT = 4.1` and `T = 25` does
*not* succeed: the source compares `kBT == 0.013806*(273.15+T)` exactly,
and `4.1 ≠ 4.1162589`, so the specification is rejected. -/
theorem compile_T25_cex :
    WormLikeChain.compile .WLC pDict25 = .error .contradiction := by
  norm_num [WormLikeChain.compile, pDict25, KB]

/-- Claim C6 (corrected): `compile` raises the contradiction error if and
only if both `kBT` and `T` are present and `kBT` differs from
`0.013806*(273.15+T)` under exact comparison; both `(kBT=4.1, T=1000)`
and `(kBT=4.1, T=25)` raise, the latter because `4.1` is not exactly
`0.013806*298.15`. -/
theorem compile_contradiction_iff :
    (∀ (tag : ModelTag) (p : ParamsDict),
        WormLikeChain.compile tag p = .error .contradiction ↔
          ∃ k t, p.kBT = some k ∧ p.T = some t ∧ k ≠ KB * (27315/100 + t)) ∧
    WormLikeChain.compile .WLC pDict1000 = .error .contradiction ∧
    WormLikeChain.compile .WLC pDict25 = .error .contradiction := by
  refine ⟨?_, ?_, ?_⟩
  · intro tag p
    rcases hk : p.kBT with _ | k <;> rcases ht : p.T with _ | t <;>
      simp [WormLikeChain.compile, hk, ht, compileRest_ne_contradiction]
  · norm_num [WormLikeChain.compile, pDict1000, KB]
  · norm_num [WormLikeChain.compile, pDict25, KB]

/-- Claim C7 counterexample: constructing the fitter with model name
`ebouchiat` raises, although the model library defines `ebouchiat`. -/
theorem init_ebouchiat_cex :
    WormLikeChain.init "ebouchiat" = .error .unknownModel := rfl

/-- Claim C7 (corrected): construction succeeds if and only if the model
name is one of `WLC`, `bouchiat`, `odijk`, `eWLC` — a four-element set;
`ebouchiat` is not wired into the selection chain and raises. -/
theorem init_ok_iff_known (s : String) :
    (∃ t, WormLikeChain.init s = .ok t) ↔
      s = "WLC" ∨ s = "bouchiat" ∨ s = "odijk" ∨ s = "eWLC" := by
  unfold WormLikeChain.init
  split_ifs with h1 h2 h3 h4 <;> simp [*]

/-- Claim C8 counterexample: with `kBT = 0` (and `d/Lc = 1/2000 ≠ 0`) the
Bouchiat correction term carries the factor `kBT/Lp` and vanishes, so
`bouchiat` coincides with `WLC` although `d/Lc ≠ 0`: the claimed
"strictly nonzero whenever `d/Lc ≠ 0`" fails without a `kBT ≠ 0`
(and `Lp ≠ 0`) assumption. -/
theorem bouchiat_zero_kBT_cex :
    bouchiat (1/2000) 0 1 1 = WLC (1/2000) 0 1 1 ∧ ((1/2000 : ℚ) / 1) ≠ 0 := by
  constructor
  · norm_num [bouchiat, WLC]
  · norm_num

/-- Claim C8 (corrected): for all inputs, `bouchiat` equals `WLC` plus
`(kBT/Lp)` times the fixed-coefficient correction sum in `1000*d/Lc`
(powers 2..7); the correction term is strictly nonzero whenever
`kBT ≠ 0`, `Lp ≠ 0` and `d/Lc ≠ 0` (the quintic coefficient polynomial
has no rational root, by the mod-3 argument); and at `d = 0` both models
are exactly `0`. -/
theorem bouchiat_correction_amended :
    (∀ d kBT Lc Lp : ℚ,
        bouchiat d kBT Lc Lp =
          WLC d kBT Lc Lp + kBT / Lp * bouchiatCorr (1000 * d / Lc)) ∧
    (∀ d kBT Lc Lp : ℚ, kBT ≠ 0 → Lp ≠ 0 → d / Lc ≠ 0 →
        kBT / Lp * bouchiatCorr (1000 * d / Lc) ≠ 0) ∧
    (∀ kBT Lc Lp : ℚ, WLC 0 kBT Lc Lp = 0 ∧ bouchiat 0 kBT Lc Lp = 0) := by
  refine ⟨?_, ?_, ?_⟩
  · intro d kBT Lc Lp
    rw [show (1000 * d / Lc : ℚ) = d * 1000 / Lc by ring]
    unfold bouchiat WLC
    ring
  · intro d kBT Lc Lp hk hp hdc
    exact mul_ne_zero (div_ne_zero hk hp) (bouchiatCorr_ne_zero d Lc hdc)
  · intro kBT Lc Lp
    constructor
    · norm_num [WLC]
    · norm_num [bouchiat, bouchiatCorr_eval]

/-- Witness for claim C8: the correction term at `d = 1/2000`,
`kBT = Lc = Lp = 1` is nonzero. -/
theorem bouchiat_correction_amended_witness :
    (1 : ℚ) / 1 * bouchiatCorr (1000 * (1/2000) / 1) ≠ 0 :=
  bouchiat_correction_amended.2.1 (1/2000) 1 1 1 (by norm_num) (by norm_num)
    (by norm_num)

/-- Claim C9 (confirmed): for positive `kBT`, `Lc`, `Lp` the WLC force is
strictly increasing in `d` on the region where the rescaled distance
`1000*d` lies strictly between `0` and `Lc` (the implementation converts
um to nm before comparing with `Lc`), and it is exactly `0` at `d = 0`. -/
theorem WLC_monotone_zero :
    (∀ kBT Lc Lp d1 d2 : ℚ, 0 < kBT → 0 < Lc → 0 < Lp →
        0 < d1 → d1 < d2 → 1000 * d2 < Lc →
        WLC d1 kBT Lc Lp < WLC d2 kBT Lc Lp) ∧
    (∀ kBT Lc Lp : ℚ, WLC 0 kBT Lc Lp = 0) := by
  constructor
  · intro kBT Lc Lp d1 d2 hk hc hp h1 h12 h2
    unfold WLC
    have hx12 : d1 * 1000 / Lc < d2 * 1000 / Lc := by gcongr ?_ / Lc; linarith
    have hx2 : d2 * 1000 / Lc < 1 := (div_lt_one hc).mpr (by linarith)
    have h1x2 : 0 < 1 - d2 * 1000 / Lc := by linarith
    have h1x1 : 0 < 1 - d1 * 1000 / Lc := by linarith
    have hsq : (1 - d2 * 1000 / Lc) ^ 2 < (1 - d1 * 1000 / Lc) ^ 2 := by nlinarith
    have hfrac : 1/4 / (1 - d1 * 1000 / Lc) ^ 2 < 1/4 / (1 - d2 * 1000 / Lc) ^ 2 :=
      div_lt_div_of_pos_left (by norm_num) (by positivity) hsq
    have hmul : 0 < kBT / Lp := by positivity
    apply mul_lt_mul_of_pos_left _ hmul
    linarith
  · intro kBT Lc Lp
    norm_num [WLC]

/-- Witness for claim C9 at concrete distances `0.1` and `0.2` um with
`Lc = 1000` nm. -/
theorem WLC_monotone_zero_witness :
    WLC (1/10) 1 1000 1 < WLC (2/10) 1 1000 1 :=
  WLC_monotone_zero.1 1 1000 1 (1/10) (2/10) (by norm_num) (by norm_num)
    (by norm_num) (by norm_num) (by norm_num) (by norm_num)

/-- Claim C10 (confirmed): at zero force the extensible models reduce
exactly to their inextensible counterparts: `eWLC ((d,0), …, S) = WLC`
and `ebouchiat ((d,0), …, S) = bouchiat` for any nonzero `S`. -/
theorem extensible_zero_force (d kBT Lc Lp S : ℚ) (hS : S ≠ 0) :
    eWLC (d, 0) kBT Lc Lp S = WLC d kBT Lc Lp ∧
      ebouchiat (d, 0) kBT Lc Lp S = bouchiat d kBT Lc Lp := by
  constructor <;> simp [eWLC, WLC, ebouchiat, bouchiat]

/-- Witness for claim C10 at concrete parameters. -/
theorem extensible_zero_force_witness :
    eWLC (1, 0) 2 3 4 5 = WLC 1 2 3 4 ∧
      ebouchiat (1, 0) 2 3 4 5 = bouchiat 1 2 3 4 :=
  extensible_zero_force 1 2 3 4 5 (by norm_num)

end Wlc
